import Mathlib

/-!
Shallow embedding of the Sdb debugger's stop-point subsystem.

Byte-addressed tracee memory is a function `Nat → Nat` whose values are bytes
(`< 256`).  `PTRACE_PEEKDATA` reads the little-endian 64-bit word starting at an
address, `PTRACE_POKEDATA` writes one back.  `breakpoint_site::enable` and
`breakpoint_site::disable` are translated from `src/breakpoint_site.cpp`;
exceptions thrown by `sdb::error::send_errno` are modelled by returning the
error alongside the fields the C++ code had already mutated in place.  Kernel
call failures are modelled by an optional errno for the peek and the poke call.
The pieces of `process.cpp` and `watchpoint.cpp` that are not in the sources
(hardware-slot allocation, stop-point factories, the lifecycle state machine)
are modelled from the specification and are marked as such.
-/

namespace sdb

/-- A memory image is well formed when every cell holds one byte. -/
def WfMem (mem : Nat → Nat) : Prop := ∀ x, mem x < 256

/-- Little-endian 64-bit word read at `a`, as done by `PTRACE_PEEKDATA`. -/
def peekWord (mem : Nat → Nat) (a : Nat) : Nat :=
  mem a + 2^8 * mem (a+1) + 2^16 * mem (a+2) + 2^24 * mem (a+3) +
  2^32 * mem (a+4) + 2^40 * mem (a+5) + 2^48 * mem (a+6) + 2^56 * mem (a+7)

/-- Byte `i` of a 64-bit word (little endian). -/
def byteAt (w i : Nat) : Nat := w / 2^(8*i) % 256

/-- Little-endian 64-bit word write at `a`, as done by `PTRACE_POKEDATA`. -/
def pokeWord (mem : Nat → Nat) (a w : Nat) : Nat → Nat :=
  fun x => if a ≤ x ∧ x < a + 8 then byteAt w (x - a) else mem x

/-- `sdb::error`: a message plus an optional OS errno (`send_errno` sets it). -/
structure error where
  message : String
  errnoVal : Option Nat
deriving DecidableEq

/-- The fields of `sdb::breakpoint_site`.  `saved_data` is a byte; the
`hardware_register_index` sentinel for "no owned slot" is `-1`
(`disable` resets it to `-1`; the header with the in-class initializer is not
among the sources, so `-1` is also used as the constructed value). -/
structure breakpoint_site where
  id : Int
  address : Nat
  is_enabled : Bool
  saved_data : Nat
  is_hardware : Bool
  is_internal : Bool
  hardware_register_index : Int
deriving DecidableEq

/-- The anonymous-namespace `get_next_id` of `breakpoint_site.cpp`: a single
static counter for the whole debugger, `return ++id`. -/
def get_next_id (id : Nat) : Nat × Nat := (id + 1, id + 1)

/-- The `sdb::breakpoint_site` constructor: disabled, zero `saved_data_`, and
`id_ = is_internal_ ? -1 : get_next_id()` (the counter is not advanced for an
internal site).  Returns the site together with the updated global counter. -/
def breakpoint_site.construct (counter : Nat) (address : Nat)
    (is_hardware is_internal : Bool) : breakpoint_site × Nat :=
  if is_internal then
    (⟨-1, address, false, 0, is_hardware, is_internal, -1⟩, counter)
  else
    let p := get_next_id counter
    (⟨(p.1 : Int), address, false, 0, is_hardware, is_internal, -1⟩, p.2)

/-- Lowest-index free debug-register slot, if any. -/
def find_free_slot (occ : Fin 4 → Bool) : Option (Fin 4) :=
  if occ 0 = false then some 0
  else if occ 1 = false then some 1
  else if occ 2 = false then some 2
  else if occ 3 = false then some 3
  else none

/-- Modelled from the spec: `process::set_hardware_breakpoint` (`process.cpp`
is not among the sources) "chooses a free slot (lowest-index)" and fails
"when all four slots are occupied"; only slot occupancy is modelled. -/
def process.set_hardware_breakpoint (occ : Fin 4 → Bool) :
    Option (Fin 4 × (Fin 4 → Bool)) :=
  (find_free_slot occ).map (fun i => (i, Function.update occ i true))

/-- Modelled from the spec: `process::clear_hardware_stoppoint` (`process.cpp`
is not among the sources) "zeroes the DR and clears DR7 bits" for the slot. -/
def process.clear_hardware_stoppoint (occ : Fin 4 → Bool) (idx : Int) :
    Fin 4 → Bool :=
  if h : 0 ≤ idx ∧ idx < 4 then
    Function.update occ ⟨idx.toNat, by omega⟩ false
  else occ

/-- The slice of tracee state a breakpoint site's methods touch: the memory
image, the dispositions of the next peek and poke kernel calls (`some e` means
the call fails with errno `e`), and debug-register slot occupancy. -/
structure proc_ctx where
  mem : Nat → Nat
  peek_err : Option Nat
  poke_err : Option Nat
  dr_occ : Fin 4 → Bool

/-- Result of `enable`/`disable`: the error (if one was thrown), together with
the site fields and tracee state as left behind by the call. -/
structure step_result where
  err : Option error
  site : breakpoint_site
  ctx : proc_ctx

/-- `sdb::breakpoint_site::enable` from `breakpoint_site.cpp`.  The software
branch peeks a word, stores its low byte (`data & 0xff`) into `saved_data_`,
and pokes back `(data & ~0xff) | 0xcc`; `~0xff` converted to `uint64_t` is
`0xFFFFFFFFFFFFFF00`.  On a failed peek nothing has been written yet; on a
failed poke `saved_data_` has already been assigned.  The hardware branch asks
the controller for a slot. -/
def breakpoint_site.enable (site : breakpoint_site) (ctx : proc_ctx) :
    step_result :=
  if site.is_enabled then ⟨none, site, ctx⟩
  else if site.is_hardware then
    match process.set_hardware_breakpoint ctx.dr_occ with
    | none => ⟨some ⟨"No remaining hardware debug registers", none⟩, site, ctx⟩
    | some p =>
      ⟨none,
        { site with hardware_register_index := ((p.1 : Nat) : Int),
                    is_enabled := true },
        { ctx with dr_occ := p.2 }⟩
  else
    let data := peekWord ctx.mem site.address
    match ctx.peek_err with
    | some e => ⟨some ⟨"Enabling breakpoint site failed", some e⟩, site, ctx⟩
    | none =>
      let site' := { site with saved_data := data &&& 0xff }
      let data_with_int3 := (data &&& 0xFFFFFFFFFFFFFF00) ||| 0xcc
      match ctx.poke_err with
      | some e => ⟨some ⟨"Enabling breakpoing site failed", some e⟩, site', ctx⟩
      | none =>
        ⟨none, { site' with is_enabled := true },
          { ctx with mem := pokeWord ctx.mem site.address data_with_int3 }⟩

/-- `sdb::breakpoint_site::disable` from `breakpoint_site.cpp`.  The software
branch peeks a word and pokes back `(data & ~0xff) | saved_data_`; the
hardware branch clears the owned slot and resets the index to `-1`.
`is_enabled_` is cleared only after the kernel calls succeed. -/
def breakpoint_site.disable (site : breakpoint_site) (ctx : proc_ctx) :
    step_result :=
  if !site.is_enabled then ⟨none, site, ctx⟩
  else if site.is_hardware then
    let occ' := process.clear_hardware_stoppoint ctx.dr_occ site.hardware_register_index
    ⟨none,
      { site with hardware_register_index := -1, is_enabled := false },
      { ctx with dr_occ := occ' }⟩
  else
    let data := peekWord ctx.mem site.address
    match ctx.peek_err with
    | some e => ⟨some ⟨"Disabling breakpoint site failed", some e⟩, site, ctx⟩
    | none =>
      let restored_data := (data &&& 0xFFFFFFFFFFFFFF00) ||| site.saved_data
      match ctx.poke_err with
      | some e =>
        ⟨some ⟨"Disabling breakpoint site failed", some e⟩, site, ctx⟩
      | none =>
        ⟨none, { site with is_enabled := false },
          { ctx with mem := pokeWord ctx.mem site.address restored_data }⟩

/-- One shell-driven operation on a breakpoint site. -/
inductive bp_op
  | en
  | dis
deriving DecidableEq

/-- Run one `enable`/`disable` call on a software site with both kernel calls
succeeding, tracking only the site and the memory image. -/
def run_op (p : breakpoint_site × (Nat → Nat)) (op : bp_op) :
    breakpoint_site × (Nat → Nat) :=
  let ctx : proc_ctx := ⟨p.2, none, none, fun _ => false⟩
  match op with
  | .en => let r := p.1.enable ctx; (r.site, r.ctx.mem)
  | .dis => let r := p.1.disable ctx; (r.site, r.ctx.mem)

/-- Run a sequence of `enable`/`disable` calls. -/
def run_ops (p : breakpoint_site × (Nat → Nat)) (ops : List bp_op) :
    breakpoint_site × (Nat → Nat) :=
  ops.foldl run_op p

/-- One request to the `create_breakpoint_site` factory. -/
structure site_req where
  address : Nat
  hardware : Bool
  internal : Bool

/-- Construct sites in order, threading the global id counter. -/
def construct_sites (counter : Nat) : List site_req → List breakpoint_site × Nat
  | [] => ([], counter)
  | r :: rs =>
    let p := breakpoint_site.construct counter r.address r.hardware r.internal
    let q := construct_sites p.2 rs
    (p.1 :: q.1, q.2)

/-- `sdb::process_state` from `process.hpp`. -/
inductive process_state
  | stopped
  | running
  | exited
  | terminated
deriving DecidableEq

/-- The in-class initializer of `process::state_` in `process.hpp`:
`process_state state_ = process_state::stopped`. -/
def process.initial_state : process_state := .stopped

/-- Decoded `waitpid` status: exactly one of `WIFSTOPPED`, `WIFEXITED`,
`WIFSIGNALED` holds, with the associated signal number or exit status. -/
inductive wait_status
  | ifstopped (sig : Nat)
  | ifexited (status : Nat)
  | ifsignaled (sig : Nat)

/-- Modelled from the spec: the `stop_reason` decoding of a wait status
(`process.cpp` is not among the sources): `WIFSTOPPED` ⇒ stopped,
`WIFEXITED` ⇒ exited, `WIFSIGNALED` ⇒ terminated, with the info byte. -/
def decode_wait : wait_status → process_state × Nat
  | .ifstopped sig => (.stopped, sig)
  | .ifexited status => (.exited, status)
  | .ifsignaled sig => (.terminated, sig)

/-- A state-changing controller operation. -/
inductive process_op
  | resume
  | step_instruction
  | wait (w : wait_status)

/-- Modelled from the spec: the process lifecycle state machine
(`process.cpp` is not among the sources).  `resume`/`step_instruction` move
stopped to running; `wait_on_signal` moves running to the decoded state; on a
tracee that has exited or terminated any further resume/step fails (`none`). -/
def process.transition : process_state → process_op → Option process_state
  | .stopped, .resume => some .running
  | .stopped, .step_instruction => some .running
  | .running, .wait w => some (decode_wait w).1
  | _, _ => none

/-- Modelled from the spec: `process::create_breakpoint_site` (`process.cpp`
is not among the sources): a duplicate address fails and leaves the collection
and the id counter unchanged; otherwise the constructed site is appended. -/
def process.create_breakpoint_site (sites : List breakpoint_site)
    (counter : Nat) (address : Nat) (hardware internal : Bool) :
    Option error × List breakpoint_site × Nat :=
  if sites.any (fun s => s.address == address) then
    (some ⟨"Breakpoint site already created at address", none⟩, sites, counter)
  else
    let p := breakpoint_site.construct counter address hardware internal
    (none, sites ++ [p.1], p.2)

/-- One operation on the breakpoint-site collection. -/
inductive coll_op
  | create (address : Nat) (hardware internal : Bool)
  | remove_by_address (address : Nat)
  | remove_by_id (id : Int)

/-- Modelled from the spec: the keyed stop-point collection's create and
remove operations (`stoppoint_collection.hpp` is not among the sources);
removal deletes the matching site. -/
def run_coll_op (p : List breakpoint_site × Nat) (op : coll_op) :
    List breakpoint_site × Nat :=
  match op with
  | .create a hw int =>
    let r := process.create_breakpoint_site p.1 p.2 a hw int
    r.2
  | .remove_by_address a => (p.1.filter (fun s => !(s.address == a)), p.2)
  | .remove_by_id i => (p.1.filter (fun s => !(s.id == i)), p.2)

/-- No two sites in the collection share an address. -/
def distinct_addresses (sites : List breakpoint_site) : Prop :=
  sites.Pairwise (fun a b => a.address ≠ b.address)

/-- `sdb::stoppoint_mode`. -/
inductive stoppoint_mode
  | execute
  | write
  | read_write
deriving DecidableEq

/-- The fields of `sdb::watchpoint` this development needs. -/
structure watchpoint where
  id : Int
  address : Nat
  mode : stoppoint_mode
  size : Nat
  is_enabled : Bool

/-- Modelled from the spec: `process::create_watchpoint` (`watchpoint.cpp` and
`process.cpp` are not among the sources): a size outside {1,2,4,8} fails with
a usage error; a duplicate address fails analogously to breakpoint sites;
otherwise the watchpoint is appended, taking the next id. -/
def process.create_watchpoint (wps : List watchpoint) (counter : Nat)
    (address : Nat) (mode : stoppoint_mode) (size : Nat) :
    Option error × List watchpoint × Nat :=
  if size = 1 ∨ size = 2 ∨ size = 4 ∨ size = 8 then
    if wps.any (fun w => w.address == address) then
      (some ⟨"Watchpoint already created at address", none⟩, wps, counter)
    else
      (none, wps ++ [⟨(counter + 1 : Nat), address, mode, size, false⟩],
        counter + 1)
  else
    (some ⟨"Invalid watchpoint size", none⟩, wps, counter)

/-- Number of occupied debug-register slots. -/
def num_occupied (occ : Fin 4 → Bool) : Nat :=
  (List.finRange 4).countP (fun i => occ i)

/-- `process::read_memory`, byte level: `n` bytes starting at `a`. -/
def read_memory (mem : Nat → Nat) (a n : Nat) : List Nat :=
  (List.range n).map (fun i => mem (a + i))

/-- Modelled from the spec: `process::read_memory_without_traps`
(`process.cpp` is not among the sources) reads memory and then, for every
overlapping enabled software breakpoint site, "restores `saved_byte` at its
offset". -/
def read_memory_without_traps (sites : List breakpoint_site)
    (mem : Nat → Nat) (a n : Nat) : List Nat :=
  (List.range n).map (fun i =>
    match sites.find? (fun s =>
        s.is_enabled && !s.is_hardware && s.address == a + i) with
    | some s => s.saved_data
    | none => mem (a + i))

/-- Invariant tying a software site and the current memory to the pristine
image `mem0`: memory differs from `mem0` at most at the site's address, which
holds `0xCC` with `saved_data_` holding the original byte exactly when the
site is enabled. -/
def bp_inv (mem0 : Nat → Nat) (A : Nat)
    (p : breakpoint_site × (Nat → Nat)) : Prop :=
  p.1.address = A ∧ p.1.is_hardware = false ∧ WfMem p.2 ∧
  p.1.saved_data < 256 ∧
  (∀ x, x ≠ A → p.2 x = mem0 x) ∧
  (p.1.is_enabled = true → p.2 A = 0xcc ∧ p.1.saved_data = mem0 A) ∧
  (p.1.is_enabled = false → p.2 A = mem0 A)

/-- A freshly constructed non-internal software site at `A` driven through a
sequence of successful `enable`/`disable` calls over the image `mem0`. -/
def site_run (c A : Nat) (mem0 : Nat → Nat) (ops : List bp_op) :
    breakpoint_site × (Nat → Nat) :=
  run_ops ((breakpoint_site.construct c A false false).1, mem0) ops

/-- A concrete well-formed memory image: every cell holds the byte 7. -/
def demo_mem : Nat → Nat := fun _ => 7

/-- A concrete memory image whose every byte is already `0xCC`. -/
def demo_mem_cc : Nat → Nat := fun _ => 0xcc

/-- A concrete disabled software breakpoint site at address 1000. -/
def demo_site : breakpoint_site := ⟨1, 1000, false, 0, false, false, -1⟩

/-- A concrete tracee context with succeeding kernel calls. -/
def demo_ctx : proc_ctx := ⟨demo_mem, none, none, fun _ => false⟩

/-- A concrete enabled software breakpoint site with saved byte 7. -/
def demo_site_enabled : breakpoint_site := ⟨1, 1000, true, 7, false, false, -1⟩

/-- A context whose next peek fails with errno 14 (`EFAULT`). -/
def demo_ctx_peek_fail : proc_ctx := ⟨demo_mem, some 14, none, fun _ => false⟩

/-- A context whose next peek succeeds and next poke fails with errno 14. -/
def demo_ctx_poke_fail : proc_ctx := ⟨demo_mem, none, some 14, fun _ => false⟩

/-- Bits of the mask `~0xff` (as `uint64_t`): exactly bits 8 to 63. -/
theorem mask_testBit (i : Nat) :
    (0xFFFFFFFFFFFFFF00 : Nat).testBit i = (decide (8 ≤ i) && decide (i < 64)) := by
  have h : (0xFFFFFFFFFFFFFF00 : Nat) = (2^56 - 1) <<< 8 := by
    norm_num [Nat.shiftLeft_eq]
  rw [h, Nat.testBit_shiftLeft, Nat.testBit_two_pow_sub_one]
  by_cases h8 : 8 ≤ i
  · simp [h8]
    omega
  · simp [h8]

/-- The low byte of the spliced word `(d & ~0xff) | b` is `b`. -/
theorem splice_mod (d b : Nat) (hb : b < 256) :
    ((d &&& 0xFFFFFFFFFFFFFF00) ||| b) % 256 = b := by
  have h1 := Nat.and_pow_two_sub_one_eq_mod ((d &&& 0xFFFFFFFFFFFFFF00) ||| b) 8
  norm_num at h1
  rw [← h1, Nat.and_distrib_right, Nat.and_assoc]
  have h2 : (0xFFFFFFFFFFFFFF00 &&& 255 : Nat) = 0 := by decide
  rw [h2]
  have h3 := Nat.and_pow_two_sub_one_eq_mod b 8
  norm_num at h3
  simp [h3, Nat.mod_eq_of_lt hb]

/-- The upper seven bytes of the spliced word `(d & ~0xff) | b` are those
of `d`, for a 64-bit `d` and a byte `b`. -/
theorem splice_div (d b : Nat) (hd : d < 2^64) (hb : b < 256) :
    ((d &&& 0xFFFFFFFFFFFFFF00) ||| b) / 256 = d / 256 := by
  have e8 : ((d &&& 0xFFFFFFFFFFFFFF00) ||| b) / 256 =
      ((d &&& 0xFFFFFFFFFFFFFF00) ||| b) >>> 8 := by
    rw [Nat.shiftRight_eq_div_pow]
  have e9 : d / 256 = d >>> 8 := by rw [Nat.shiftRight_eq_div_pow]
  rw [e8, e9]
  refine Nat.eq_of_testBit_eq fun j => ?_
  rw [Nat.testBit_shiftRight, Nat.testBit_shiftRight, Nat.testBit_or,
    Nat.testBit_and, mask_testBit]
  have hbj : b.testBit (8 + j) = false :=
    Nat.testBit_lt_two_pow (lt_of_lt_of_le hb (by
      calc (256:Nat) = 2^8 := by norm_num
      _ ≤ 2^(8+j) := Nat.pow_le_pow_right (by norm_num) (by omega)))
  rw [hbj]
  by_cases h64 : 8 + j < 64
  · simp [h64]
  · have hdj : d.testBit (8 + j) = false :=
      Nat.testBit_lt_two_pow (lt_of_lt_of_le hd
        (Nat.pow_le_pow_right (by norm_num) (by omega)))
    simp [hdj]

/-- `data & 0xff` is the low byte. -/
theorem land_ff (d : Nat) : d &&& 0xff = d % 256 := by
  have h := Nat.and_pow_two_sub_one_eq_mod d 8
  norm_num at h
  exact h

theorem byteAt_zero (w : Nat) : byteAt w 0 = w % 256 := by
  simp [byteAt]

theorem byteAt_succ (w i : Nat) : byteAt w (i+1) = byteAt (w / 256) i := by
  simp only [byteAt]
  rw [Nat.div_div_eq_div_mul, mul_comm (256 : Nat)]
  congr 2
  rw [show 8 * (i + 1) = 8 * i + 8 by ring, pow_add]
  norm_num

/-- A word peeked from a well-formed memory is a 64-bit value. -/
theorem peekWord_lt (mem : Nat → Nat) (a : Nat) (h : WfMem mem) :
    peekWord mem a < 2^64 := by
  have h0 := h a
  have h1 := h (a+1)
  have h2 := h (a+2)
  have h3 := h (a+3)
  have h4 := h (a+4)
  have h5 := h (a+5)
  have h6 := h (a+6)
  have h7 := h (a+7)
  simp only [peekWord]
  norm_num
  omega

/-- The low byte of a peeked word is the byte at the address. -/
theorem peekWord_mod (mem : Nat → Nat) (a : Nat) (h : WfMem mem) :
    peekWord mem a % 256 = mem a := by
  have h0 := h a
  have h1 := h (a+1)
  have h2 := h (a+2)
  have h3 := h (a+3)
  have h4 := h (a+4)
  have h5 := h (a+5)
  have h6 := h (a+6)
  have h7 := h (a+7)
  simp only [peekWord]
  norm_num
  omega

/-- Byte `i < 8` of a peeked word is the memory byte at `a + i`. -/
theorem peekWord_byte (mem : Nat → Nat) (a : Nat) (h : WfMem mem) :
    ∀ i, i < 8 → byteAt (peekWord mem a) i = mem (a + i) := by
  have h0 := h a
  have h1 := h (a+1)
  have h2 := h (a+2)
  have h3 := h (a+3)
  have h4 := h (a+4)
  have h5 := h (a+5)
  have h6 := h (a+6)
  have h7 := h (a+7)
  intro i hi
  interval_cases i <;> (simp only [byteAt, peekWord]; norm_num; omega)

/-- Poking back a word spliced from the word peeked at `a` with a new low
byte `b` sets the byte at `a` to `b` and leaves every other byte unchanged. -/
theorem pokeWord_splice (mem : Nat → Nat) (a b : Nat) (h : WfMem mem)
    (hb : b < 256) :
    pokeWord mem a ((peekWord mem a &&& 0xFFFFFFFFFFFFFF00) ||| b) a = b ∧
    (∀ x, x ≠ a →
      pokeWord mem a ((peekWord mem a &&& 0xFFFFFFFFFFFFFF00) ||| b) x = mem x) ∧
    WfMem (pokeWord mem a ((peekWord mem a &&& 0xFFFFFFFFFFFFFF00) ||| b)) := by
  set w := (peekWord mem a &&& 0xFFFFFFFFFFFFFF00) ||| b with hw
  have hdiv : w / 256 = peekWord mem a / 256 :=
    splice_div _ _ (peekWord_lt mem a h) hb
  refine ⟨?_, ?_, ?_⟩
  · simp only [pokeWord]
    rw [if_pos (by omega)]
    simp only [Nat.sub_self, byteAt_zero]
    exact splice_mod _ _ hb
  · intro x hx
    simp only [pokeWord]
    by_cases hr : a ≤ x ∧ x < a + 8
    · rw [if_pos hr]
      obtain ⟨j, hj⟩ : ∃ j, x - a = j + 1 := ⟨x - a - 1, by omega⟩
      rw [hj, byteAt_succ, hdiv, ← byteAt_succ]
      rw [peekWord_byte mem a h (j+1) (by omega)]
      congr 1
      omega
    · rw [if_neg hr]
  · intro x
    simp only [pokeWord]
    by_cases hr : a ≤ x ∧ x < a + 8
    · rw [if_pos hr]
      simp only [byteAt]
      exact Nat.mod_lt _ (by norm_num)
    · rw [if_neg hr]
      exact h x

/-- Successful software enable, as a single equation: the low byte of the
peeked word becomes `saved_data_`, the spliced word is poked back, and the
site becomes enabled. -/
theorem enable_sw_eq (site : breakpoint_site) (ctx : proc_ctx)
    (hhw : site.is_hardware = false) (hen : site.is_enabled = false)
    (hp : ctx.peek_err = none) (hq : ctx.poke_err = none) :
    site.enable ctx = ⟨none,
      { site with saved_data := peekWord ctx.mem site.address &&& 0xff,
                  is_enabled := true },
      { ctx with mem := pokeWord ctx.mem site.address
                          ((peekWord ctx.mem site.address &&&
                            0xFFFFFFFFFFFFFF00) ||| 0xcc) }⟩ := by
  simp [breakpoint_site.enable, hen, hhw, hp, hq]

/-- Successful software disable, as a single equation: the word at the address
is peeked, its low byte replaced by `saved_data_`, and poked back. -/
theorem disable_sw_eq (site : breakpoint_site) (ctx : proc_ctx)
    (hhw : site.is_hardware = false) (hen : site.is_enabled = true)
    (hp : ctx.peek_err = none) (hq : ctx.poke_err = none) :
    site.disable ctx = ⟨none, { site with is_enabled := false },
      { ctx with mem := pokeWord ctx.mem site.address
                          ((peekWord ctx.mem site.address &&&
                            0xFFFFFFFFFFFFFF00) ||| site.saved_data) }⟩ := by
  simp [breakpoint_site.disable, hen, hhw, hp, hq]

/-- `enable` on an already-enabled site returns immediately: no kernel call is
made (the kernel dispositions in `ctx` are never consulted) and nothing
changes. -/
theorem enable_enabled_eq (site : breakpoint_site) (ctx : proc_ctx)
    (hen : site.is_enabled = true) : site.enable ctx = ⟨none, site, ctx⟩ := by
  simp [breakpoint_site.enable, hen]

/-- `disable` on an already-disabled site returns immediately. -/
theorem disable_disabled_eq (site : breakpoint_site) (ctx : proc_ctx)
    (hen : site.is_enabled = false) : site.disable ctx = ⟨none, site, ctx⟩ := by
  simp [breakpoint_site.disable, hen]

/-- Software enable with a failing peek: the error carries the errno and
nothing has been modified. -/
theorem enable_peek_fail_eq (site : breakpoint_site) (ctx : proc_ctx)
    (hhw : site.is_hardware = false) (hen : site.is_enabled = false)
    (e : Nat) (hp : ctx.peek_err = some e) :
    site.enable ctx =
      ⟨some ⟨"Enabling breakpoint site failed", some e⟩, site, ctx⟩ := by
  simp [breakpoint_site.enable, hen, hhw, hp]

/-- Software enable with a succeeding peek and a failing poke: the error
carries the errno, the memory is untouched, but `saved_data_` has already been
overwritten with the low byte of the peeked word. -/
theorem enable_poke_fail_eq (site : breakpoint_site) (ctx : proc_ctx)
    (hhw : site.is_hardware = false) (hen : site.is_enabled = false)
    (hp : ctx.peek_err = none) (e : Nat) (hq : ctx.poke_err = some e) :
    site.enable ctx = ⟨some ⟨"Enabling breakpoing site failed", some e⟩,
      { site with saved_data := peekWord ctx.mem site.address &&& 0xff },
      ctx⟩ := by
  simp [breakpoint_site.enable, hen, hhw, hp, hq]

/-- Software disable with a failing peek: error, nothing modified. -/
theorem disable_peek_fail_eq (site : breakpoint_site) (ctx : proc_ctx)
    (hhw : site.is_hardware = false) (hen : site.is_enabled = true)
    (e : Nat) (hp : ctx.peek_err = some e) :
    site.disable ctx =
      ⟨some ⟨"Disabling breakpoint site failed", some e⟩, site, ctx⟩ := by
  simp [breakpoint_site.disable, hen, hhw, hp]

/-- Software disable with a succeeding peek and a failing poke: error, and
neither the site nor the memory is modified. -/
theorem disable_poke_fail_eq (site : breakpoint_site) (ctx : proc_ctx)
    (hhw : site.is_hardware = false) (hen : site.is_enabled = true)
    (hp : ctx.peek_err = none) (e : Nat) (hq : ctx.poke_err = some e) :
    site.disable ctx =
      ⟨some ⟨"Disabling breakpoint site failed", some e⟩, site, ctx⟩ := by
  simp [breakpoint_site.disable, hen, hhw, hp, hq]

/-- C1: for a software breakpoint site with both kernel calls succeeding,
`enable()` saves the low byte of the word peeked at the site's address as
`saved_data_` (that low byte is the memory byte at the address) and writes the
word back with only the low byte replaced by `0xCC`: afterwards the byte at
the address is `0xCC` and every other byte of memory — in particular the
upper seven bytes of the poked word — is unchanged.  `disable()` of an
enabled software site writes the word back with the low byte replaced by
`saved_data_`, leaving all other bytes unchanged. -/
theorem C1_software_enable_disable (site : breakpoint_site) (ctx : proc_ctx)
    (hhw : site.is_hardware = false) (hp : ctx.peek_err = none)
    (hq : ctx.poke_err = none) (hwf : WfMem ctx.mem) :
    (site.is_enabled = false →
      (site.enable ctx).err = none ∧
      (site.enable ctx).site.saved_data = ctx.mem site.address ∧
      (site.enable ctx).ctx.mem site.address = 0xcc ∧
      (∀ x, x ≠ site.address → (site.enable ctx).ctx.mem x = ctx.mem x)) ∧
    (site.is_enabled = true → site.saved_data < 256 →
      (site.disable ctx).err = none ∧
      (site.disable ctx).ctx.mem site.address = site.saved_data ∧
      (∀ x, x ≠ site.address → (site.disable ctx).ctx.mem x = ctx.mem x)) := by
  constructor
  · intro hen
    rw [enable_sw_eq site ctx hhw hen hp hq]
    have hps := pokeWord_splice ctx.mem site.address 0xcc hwf (by norm_num)
    refine ⟨rfl, ?_, hps.1, hps.2.1⟩
    show peekWord ctx.mem site.address &&& 0xff = ctx.mem site.address
    rw [land_ff]
    exact peekWord_mod _ _ hwf
  · intro hen hb
    rw [disable_sw_eq site ctx hhw hen hp hq]
    have hps := pokeWord_splice ctx.mem site.address site.saved_data hwf hb
    exact ⟨rfl, hps.1, hps.2.1⟩

/-- Witness for C1 at a concrete site and memory. -/
theorem C1_software_enable_disable_witness :
    (demo_site.enable demo_ctx).site.saved_data = 7 ∧
    (demo_site.enable demo_ctx).ctx.mem 1000 = 0xcc ∧
    (demo_site.enable demo_ctx).ctx.mem 1001 = 7 := by
  have h := (C1_software_enable_disable demo_site demo_ctx rfl rfl rfl
    (fun x => by norm_num [demo_ctx, demo_mem])).1 rfl
  exact ⟨h.2.1, h.2.2.1,
    by rw [h.2.2.2 1001 (by norm_num [demo_site])]; norm_num [demo_ctx, demo_mem]⟩

/-- A successful `enable` leaves the site enabled (every success path sets
`is_enabled_ = true` or had it set already). -/
theorem enable_ok_enabled (site : breakpoint_site) (ctx : proc_ctx)
    (h : (site.enable ctx).err = none) :
    (site.enable ctx).site.is_enabled = true := by
  cases hen : site.is_enabled
  · cases hhw : site.is_hardware
    · cases hp : ctx.peek_err with
      | none =>
        cases hq : ctx.poke_err with
        | none => rw [enable_sw_eq site ctx hhw hen hp hq]
        | some e => rw [enable_poke_fail_eq site ctx hhw hen hp e hq] at h; simp at h
      | some e => rw [enable_peek_fail_eq site ctx hhw hen e hp] at h; simp at h
    · cases halloc : process.set_hardware_breakpoint ctx.dr_occ with
      | none => simp [breakpoint_site.enable, hen, hhw, halloc] at h
      | some p => simp [breakpoint_site.enable, hen, hhw, halloc]
  · rw [enable_enabled_eq site ctx hen]
    exact hen

/-- A successful `disable` leaves the site disabled. -/
theorem disable_ok_disabled (site : breakpoint_site) (ctx : proc_ctx)
    (h : (site.disable ctx).err = none) :
    (site.disable ctx).site.is_enabled = false := by
  cases hen : site.is_enabled
  · rw [disable_disabled_eq site ctx hen]
    exact hen
  · cases hhw : site.is_hardware
    · cases hp : ctx.peek_err with
      | none =>
        cases hq : ctx.poke_err with
        | none => rw [disable_sw_eq site ctx hhw hen hp hq]
        | some e => rw [disable_poke_fail_eq site ctx hhw hen hp e hq] at h; simp at h
      | some e => rw [disable_peek_fail_eq site ctx hhw hen e hp] at h; simp at h
    · simp [breakpoint_site.disable, hen, hhw]

/-- C4: `enable()` on an already-enabled site and `disable()` on an
already-disabled site return immediately — no kernel call is made (the result
does not depend on the kernel-call dispositions in `ctx`) and neither the site
nor the tracee state changes; consequently a second `enable` after a
successful `enable` is the identity, and likewise for `disable`. -/
theorem C4_enable_disable_idempotent (site : breakpoint_site) (ctx : proc_ctx) :
    (site.is_enabled = true → site.enable ctx = ⟨none, site, ctx⟩) ∧
    (site.is_enabled = false → site.disable ctx = ⟨none, site, ctx⟩) ∧
    ((site.enable ctx).err = none →
      (site.enable ctx).site.enable (site.enable ctx).ctx =
        ⟨none, (site.enable ctx).site, (site.enable ctx).ctx⟩) ∧
    ((site.disable ctx).err = none →
      (site.disable ctx).site.disable (site.disable ctx).ctx =
        ⟨none, (site.disable ctx).site, (site.disable ctx).ctx⟩) := by
  refine ⟨fun hen => enable_enabled_eq site ctx hen,
    fun hen => disable_disabled_eq site ctx hen, fun h => ?_, fun h => ?_⟩
  · exact enable_enabled_eq _ _ (enable_ok_enabled site ctx h)
  · exact disable_disabled_eq _ _ (disable_ok_disabled site ctx h)

/-- Witness for C4: an enabled site's `enable` and a disabled site's
`disable` are no-ops even when the kernel calls would fail. -/
theorem C4_enable_disable_idempotent_witness :
    demo_site_enabled.enable demo_ctx_peek_fail =
      ⟨none, demo_site_enabled, demo_ctx_peek_fail⟩ ∧
    demo_site.disable demo_ctx_peek_fail =
      ⟨none, demo_site, demo_ctx_peek_fail⟩ := by
  exact ⟨(C4_enable_disable_idempotent demo_site_enabled demo_ctx_peek_fail).1 rfl,
    (C4_enable_disable_idempotent demo_site demo_ctx_peek_fail).2.1 rfl⟩

/-- C3 (amended): a failed `enable` raises an error carrying the OS errno and
leaves the site disabled and the tracee memory untouched; on a peek failure or
a hardware-slot exhaustion nothing at all is modified, but on a poke failure
`saved_data_` has already been overwritten with the low byte of the peeked
word before the error is raised. -/
theorem C3_enable_failure (site : breakpoint_site) (ctx : proc_ctx)
    (hen : site.is_enabled = false) :
    (∀ e, site.is_hardware = false → ctx.peek_err = some e →
      site.enable ctx =
        ⟨some ⟨"Enabling breakpoint site failed", some e⟩, site, ctx⟩) ∧
    (∀ e, site.is_hardware = false → ctx.peek_err = none →
      ctx.poke_err = some e →
      site.enable ctx = ⟨some ⟨"Enabling breakpoing site failed", some e⟩,
        { site with saved_data := peekWord ctx.mem site.address &&& 0xff },
        ctx⟩) ∧
    (site.is_hardware = true →
      process.set_hardware_breakpoint ctx.dr_occ = none →
      site.enable ctx =
        ⟨some ⟨"No remaining hardware debug registers", none⟩, site, ctx⟩) := by
  refine ⟨fun e hhw hp => enable_peek_fail_eq site ctx hhw hen e hp,
    fun e hhw hp hq => enable_poke_fail_eq site ctx hhw hen hp e hq,
    fun hhw halloc => ?_⟩
  simp [breakpoint_site.enable, hen, hhw, halloc]

/-- Witness for C3 (amended) at a concrete failing poke. -/
theorem C3_enable_failure_witness :
    demo_site.enable demo_ctx_poke_fail =
      ⟨some ⟨"Enabling breakpoing site failed", some 14⟩,
        { demo_site with saved_data := peekWord demo_mem 1000 &&& 0xff },
        demo_ctx_poke_fail⟩ :=
  (C3_enable_failure demo_site demo_ctx_poke_fail rfl).2.1 14 rfl rfl rfl

/-- Counterexample to C3 as stated: with a succeeding peek and a failing poke,
`enable` raises an error but `saved_data_` has been modified (it was 0 and is
now 7, the low byte of the peeked word), so "no field of the site is modified
by the failed call" is false. -/
theorem C3_counterexample :
    (demo_site.enable demo_ctx_poke_fail).err ≠ none ∧
    demo_site.saved_data = 0 ∧
    (demo_site.enable demo_ctx_poke_fail).site.saved_data = 7 := by
  have h := enable_poke_fail_eq demo_site demo_ctx_poke_fail rfl rfl rfl 14 rfl
  rw [h]
  refine ⟨by simp, rfl, ?_⟩
  show peekWord demo_ctx_poke_fail.mem demo_site.address &&& 0xff = 7
  rw [land_ff, peekWord_mod _ _ (fun x => by norm_num [demo_ctx_poke_fail, demo_mem])]
  rfl

/-- C10: a failed `disable` of an enabled software site (peek or poke kernel
call failing) raises an error carrying the OS errno before `is_enabled_` is
cleared: the site is returned completely unchanged — still marked enabled,
`saved_data_` intact — and the memory is untouched. -/
theorem C10_disable_failure_atomic (site : breakpoint_site) (ctx : proc_ctx)
    (hhw : site.is_hardware = false) (hen : site.is_enabled = true) :
    (∀ e, ctx.peek_err = some e →
      site.disable ctx =
        ⟨some ⟨"Disabling breakpoint site failed", some e⟩, site, ctx⟩) ∧
    (∀ e, ctx.peek_err = none → ctx.poke_err = some e →
      site.disable ctx =
        ⟨some ⟨"Disabling breakpoint site failed", some e⟩, site, ctx⟩) :=
  ⟨fun e hp => disable_peek_fail_eq site ctx hhw hen e hp,
    fun e hp hq => disable_poke_fail_eq site ctx hhw hen hp e hq⟩

/-- Witness for C10 at a concrete failing peek. -/
theorem C10_disable_failure_atomic_witness :
    demo_site_enabled.disable demo_ctx_peek_fail =
      ⟨some ⟨"Disabling breakpoint site failed", some 14⟩,
        demo_site_enabled, demo_ctx_peek_fail⟩ :=
  (C10_disable_failure_atomic demo_site_enabled demo_ctx_peek_fail
    rfl rfl).1 14 rfl

/-- One successful `enable`/`disable` call preserves the breakpoint-site
invariant. -/
theorem bp_inv_step (mem0 : Nat → Nat) (A : Nat)
    (p : breakpoint_site × (Nat → Nat)) (op : bp_op)
    (h : bp_inv mem0 A p) : bp_inv mem0 A (run_op p op) := by
  obtain ⟨haddr, hhw, hwf, hsave, hout, hen_t, hen_f⟩ := h
  subst haddr
  cases op with
  | en =>
    cases hen : p.1.is_enabled with
    | true =>
      simp only [run_op]
      rw [enable_enabled_eq _ _ hen]
      exact ⟨rfl, hhw, hwf, hsave, hout, hen_t, hen_f⟩
    | false =>
      simp only [run_op]
      rw [enable_sw_eq p.1 ⟨p.2, none, none, fun _ => false⟩ hhw hen rfl rfl]
      dsimp only [bp_inv]
      have hps := pokeWord_splice p.2 p.1.address 0xcc hwf (by norm_num)
      have hsd : peekWord p.2 p.1.address &&& 0xff = p.2 p.1.address := by
        rw [land_ff]
        exact peekWord_mod _ _ hwf
      refine ⟨rfl, hhw, hps.2.2, ?_, ?_, ?_, ?_⟩
      · rw [hsd]
        exact hwf _
      · intro x hx
        rw [hps.2.1 x hx]
        exact hout x hx
      · intro _
        exact ⟨hps.1, by rw [hsd]; exact hen_f hen⟩
      · intro hcontra
        simp at hcontra
  | dis =>
    cases hen : p.1.is_enabled with
    | false =>
      simp only [run_op]
      rw [disable_disabled_eq _ _ hen]
      exact ⟨rfl, hhw, hwf, hsave, hout, hen_t, hen_f⟩
    | true =>
      simp only [run_op]
      rw [disable_sw_eq p.1 ⟨p.2, none, none, fun _ => false⟩ hhw hen rfl rfl]
      dsimp only [bp_inv]
      have hps := pokeWord_splice p.2 p.1.address p.1.saved_data hwf hsave
      refine ⟨rfl, hhw, hps.2.2, hsave, ?_, ?_, ?_⟩
      · intro x hx
        rw [hps.2.1 x hx]
        exact hout x hx
      · intro hcontra
        simp at hcontra
      · intro _
        rw [hps.1]
        exact (hen_t hen).2

/-- Any sequence of successful `enable`/`disable` calls preserves the
breakpoint-site invariant. -/
theorem bp_inv_runs (mem0 : Nat → Nat) (A : Nat) (ops : List bp_op)
    (p : breakpoint_site × (Nat → Nat)) (h : bp_inv mem0 A p) :
    bp_inv mem0 A (run_ops p ops) := by
  induction ops generalizing p with
  | nil => exact h
  | cons op ops ih => exact ih (run_op p op) (bp_inv_step mem0 A p op h)

/-- The invariant holds for a freshly constructed software site. -/
theorem bp_inv_init (mem0 : Nat → Nat) (A c : Nat) (hwf : WfMem mem0) :
    bp_inv mem0 A ((breakpoint_site.construct c A false false).1, mem0) := by
  refine ⟨rfl, rfl, hwf, ?_, fun x _ => rfl, ?_, fun _ => rfl⟩
  · show (0:Nat) < 256
    norm_num
  · intro hcontra
    simp [breakpoint_site.construct, get_next_id] at hcontra

/-- C2 (amended): after any sequence of successful `enable`/`disable` calls
on a software breakpoint site at `A`, if the site is enabled then the tracee
byte at `A` is `0xCC` (so `read_memory(A,1)` yields `[0xCC]`),
`read_memory_without_traps(A,1)` yields `[saved_byte]`, and `saved_data_`
holds the original byte; the converse — and hence the equivalence the claim
states — holds whenever the original byte at `A` is not itself `0xCC`. -/
theorem C2_enabled_iff_installed (mem0 : Nat → Nat) (A c : Nat)
    (ops : List bp_op) (hwf : WfMem mem0) :
    ((site_run c A mem0 ops).1.is_enabled = true →
      read_memory (site_run c A mem0 ops).2 A 1 = [0xcc] ∧
      read_memory_without_traps [(site_run c A mem0 ops).1]
        (site_run c A mem0 ops).2 A 1 =
        [(site_run c A mem0 ops).1.saved_data] ∧
      (site_run c A mem0 ops).2 A = 0xcc ∧
      (site_run c A mem0 ops).1.saved_data = mem0 A) ∧
    (mem0 A ≠ 0xcc →
      ((site_run c A mem0 ops).1.is_enabled = true ↔
        ((site_run c A mem0 ops).2 A = 0xcc ∧
         (site_run c A mem0 ops).1.saved_data = mem0 A))) := by
  have hinv := bp_inv_runs mem0 A ops _ (bp_inv_init mem0 A c hwf)
  rw [show run_ops ((breakpoint_site.construct c A false false).1, mem0) ops =
    site_run c A mem0 ops from rfl] at hinv
  obtain ⟨haddr, hhw, hwf', hsave, hout, hen_t, hen_f⟩ := hinv
  constructor
  · intro hen
    obtain ⟨hcc, hsd⟩ := hen_t hen
    refine ⟨?_, ?_, hcc, hsd⟩
    · rw [read_memory, show List.range 1 = [0] from rfl]
      simp [hcc]
    · rw [read_memory_without_traps, show List.range 1 = [0] from rfl]
      simp [List.find?, hen, hhw, haddr]
  · intro hne
    constructor
    · exact hen_t
    · rintro ⟨hcc, -⟩
      cases h' : (site_run c A mem0 ops).1.is_enabled with
      | true => rfl
      | false =>
        exact absurd (by rw [← hen_f h']; exact hcc) hne

/-- Witness for C2 at a concrete run: a single `enable` on the all-7 image. -/
theorem C2_enabled_iff_installed_witness :
    (site_run 0 1000 demo_mem [bp_op.en]).2 1000 = 0xcc ∧
    (site_run 0 1000 demo_mem [bp_op.en]).1.saved_data = 7 := by
  have h := ((C2_enabled_iff_installed demo_mem 1000 0 [bp_op.en]
    (fun x => by norm_num [demo_mem])).1 (by decide))
  exact ⟨h.2.2.1, h.2.2.2⟩

/-- Counterexample to C2 as stated: when the original byte at the address is
itself `0xCC`, the sequence `enable(); disable()` leaves a disabled site whose
"installed state" (byte `0xCC` in the tracee, `saved_data_` holding the
original byte) nevertheless holds, so the claimed equivalence between the
enabled flag and the installed state is false. -/
theorem C2_counterexample :
    ¬ ((site_run 0 0 demo_mem_cc [bp_op.en, bp_op.dis]).1.is_enabled = true ↔
      ((site_run 0 0 demo_mem_cc [bp_op.en, bp_op.dis]).2 0 = 0xcc ∧
       (site_run 0 0 demo_mem_cc [bp_op.en, bp_op.dis]).1.saved_data =
         demo_mem_cc 0)) := by
  decide

/-- Constructing sites never decreases the global id counter. -/
theorem construct_sites_counter_le (reqs : List site_req) :
    ∀ c, c ≤ (construct_sites c reqs).2 := by
  induction reqs with
  | nil => intro c; exact Nat.le_refl c
  | cons r rs ih =>
    intro c
    simp only [construct_sites, breakpoint_site.construct, get_next_id]
    cases hint : r.internal with
    | true =>
      simp only [hint, if_true]
      exact ih c
    | false =>
      simp only [hint, Bool.false_eq_true, if_false]
      exact Nat.le_trans (Nat.le_succ c) (ih (c + 1))

/-- Every site produced by a run of constructions has: a non-internal id
strictly between the starting counter and the final counter, or the id `-1`
when internal. -/
theorem construct_sites_ids (reqs : List site_req) :
    ∀ c s, s ∈ (construct_sites c reqs).1 →
      (s.is_internal = false →
        (c : Int) < s.id ∧ s.id ≤ ((construct_sites c reqs).2 : Int)) ∧
      (s.is_internal = true → s.id = -1) := by
  induction reqs with
  | nil => intro c s hs; exact absurd hs (List.not_mem_nil s)
  | cons r rs ih =>
    intro c s hs
    simp only [construct_sites, breakpoint_site.construct, get_next_id] at hs ⊢
    cases hint : r.internal with
    | true =>
      simp only [hint, if_true] at hs ⊢
      rcases List.mem_cons.mp hs with hhead | htail
      · subst hhead
        exact ⟨fun hfalse => absurd hfalse (by simp [hint]), fun _ => rfl⟩
      · exact ih c s htail
    | false =>
      simp only [hint, Bool.false_eq_true, if_false] at hs ⊢
      rcases List.mem_cons.mp hs with hhead | htail
      · subst hhead
        refine ⟨fun _ => ⟨?_, ?_⟩, fun htrue => absurd htrue (by simp [hint])⟩
        · show (c : Int) < ((c + 1 : Nat) : Int)
          omega
        · show ((c + 1 : Nat) : Int) ≤ ((construct_sites (c + 1) rs).2 : Int)
          have := construct_sites_counter_le rs (c + 1)
          omega
      · have h := ih (c + 1) s htail
        refine ⟨fun hni => ⟨?_, (h.1 hni).2⟩, h.2⟩
        have := (h.1 hni).1
        omega

/-- Non-internal ids are strictly increasing in creation order. -/
theorem construct_sites_pairwise (reqs : List site_req) :
    ∀ c, (construct_sites c reqs).1.Pairwise
      (fun a b => a.is_internal = false → b.is_internal = false →
        a.id < b.id) := by
  induction reqs with
  | nil => intro c; exact List.Pairwise.nil
  | cons r rs ih =>
    intro c
    simp only [construct_sites, breakpoint_site.construct, get_next_id]
    cases hint : r.internal with
    | true =>
      simp only [hint, if_true]
      refine List.Pairwise.cons ?_ (ih c)
      intro b _ hfalse _
      exact absurd hfalse (by simp [hint])
    | false =>
      simp only [hint, Bool.false_eq_true, if_false]
      refine List.Pairwise.cons ?_ (ih (c + 1))
      intro b hb _ hbni
      have h := (construct_sites_ids rs (c + 1) b hb).1 hbni
      show ((c : Nat) + 1 : Int) < b.id
      omega

/-- C5 (amended): non-internal breakpoint sites draw ids from a single global
(static, debugger-wide) counter: each id is positive, strictly greater than
the counter value at the start of the run, and strictly increasing in
creation order, so no two non-internal sites share an id and id 0 is never
used.  Every internal site, however, receives the fixed id `-1` (internal
sites share ids). -/
theorem C5_id_allocation (c : Nat) (reqs : List site_req) :
    (∀ s ∈ (construct_sites c reqs).1,
      (s.is_internal = false → 0 < s.id ∧ (c : Int) < s.id) ∧
      (s.is_internal = true → s.id = -1)) ∧
    (construct_sites c reqs).1.Pairwise
      (fun a b => a.is_internal = false → b.is_internal = false →
        a.id < b.id) := by
  refine ⟨fun s hs => ?_, construct_sites_pairwise reqs c⟩
  have h := construct_sites_ids reqs c s hs
  refine ⟨fun hni => ⟨?_, (h.1 hni).1⟩, h.2⟩
  have := (h.1 hni).1
  omega

/-- Witness for C5 (amended): a non-internal, an internal and another
non-internal request yield ids 1, -1, 2. -/
theorem C5_id_allocation_witness :
    (construct_sites 0 [⟨100, false, false⟩, ⟨200, false, true⟩,
      ⟨300, false, false⟩]).1.map breakpoint_site.id = [1, -1, 2] ∧
    (construct_sites 0 [⟨100, false, false⟩, ⟨200, false, true⟩,
      ⟨300, false, false⟩]).1.Pairwise
      (fun a b => a.is_internal = false → b.is_internal = false →
        a.id < b.id) :=
  ⟨by decide,
    (C5_id_allocation 0 [⟨100, false, false⟩, ⟨200, false, true⟩,
      ⟨300, false, false⟩]).2⟩

/-- Counterexample to C5 as stated: the first and the second internal site
both receive id `-1` — the code assigns every internal site the constant
`-1`, not a distinct `-n` — so two sites created in one debugger run share
an id. -/
theorem C5_counterexample :
    (breakpoint_site.construct 0 100 false true).1.id = -1 ∧
    (breakpoint_site.construct
      (breakpoint_site.construct 0 100 false true).2 200 false true).1.id
      = -1 := by
  decide

/-- The allocator finds no free slot exactly when all four are occupied. -/
theorem find_free_slot_eq_none_iff (occ : Fin 4 → Bool) :
    find_free_slot occ = none ↔
      (occ 0 = true ∧ occ 1 = true ∧ occ 2 = true ∧ occ 3 = true) := by
  unfold find_free_slot
  split_ifs with h0 h1 h2 h3 <;> simp_all

/-- C6: the debug-register pool has exactly four slots, so at most four
hardware stop-points (each enabled one owning a distinct slot) are enabled at
any time; allocating when all four slots are occupied fails (returning no new
state, so no slot is consumed), and after clearing any one slot an allocation
succeeds again. -/
theorem C6_hardware_slot_limit :
    (∀ occ : Fin 4 → Bool, num_occupied occ ≤ 4) ∧
    (∀ occ : Fin 4 → Bool, (∀ i, occ i = true) →
      process.set_hardware_breakpoint occ = none) ∧
    (∀ (occ : Fin 4 → Bool) (i : Fin 4),
      process.set_hardware_breakpoint
        (process.clear_hardware_stoppoint occ ((i : Nat) : Int)) ≠ none) ∧
    (∀ sites : List breakpoint_site,
      (∀ s ∈ sites, s.is_enabled = true → s.is_hardware = true →
        0 ≤ s.hardware_register_index ∧ s.hardware_register_index < 4) →
      (sites.filter (fun s => s.is_enabled && s.is_hardware)).Pairwise
        (fun a b => a.hardware_register_index ≠ b.hardware_register_index) →
      (sites.filter (fun s => s.is_enabled && s.is_hardware)).length ≤ 4) := by
  refine ⟨?_, ?_, ?_, ?_⟩
  · intro occ
    calc num_occupied occ ≤ (List.finRange 4).length := List.countP_le_length _
    _ = 4 := by simp
  · intro occ h
    simp only [process.set_hardware_breakpoint]
    rw [(find_free_slot_eq_none_iff occ).mpr ⟨h 0, h 1, h 2, h 3⟩]
    rfl
  · intro occ i h
    simp only [process.set_hardware_breakpoint, Option.map_eq_none'] at h
    rw [find_free_slot_eq_none_iff] at h
    have hupd : process.clear_hardware_stoppoint occ ((i : Nat) : Int) i
        = false := by
      simp only [process.clear_hardware_stoppoint]
      rw [dif_pos (by constructor <;> omega)]
      have hfin : (⟨(((i : Nat) : Int)).toNat, by omega⟩ : Fin 4) = i := by
        apply Fin.ext
        simp
      rw [hfin, Function.update_same]
    fin_cases i <;> simp_all
  · intro sites hrange hpw
    have hnd : ((sites.filter (fun s => s.is_enabled && s.is_hardware)).map
        (fun s => s.hardware_register_index)).Nodup :=
      List.pairwise_map.mpr hpw
    have hsub : ((sites.filter (fun s => s.is_enabled && s.is_hardware)).map
        (fun s => s.hardware_register_index)).toFinset ⊆
        ({0, 1, 2, 3} : Finset Int) := by
      intro x hx
      rw [List.mem_toFinset] at hx
      obtain ⟨s, hs, rfl⟩ := List.mem_map.mp hx
      have hmem := List.mem_filter.mp hs
      have hflags := hmem.2
      rw [Bool.and_eq_true] at hflags
      have hr := hrange s hmem.1 hflags.1 hflags.2
      have h4 : s.hardware_register_index = 0 ∨ s.hardware_register_index = 1
          ∨ s.hardware_register_index = 2 ∨ s.hardware_register_index = 3 := by
        omega
      simp only [Finset.mem_insert, Finset.mem_singleton]
      tauto
    calc (sites.filter (fun s => s.is_enabled && s.is_hardware)).length
        = ((sites.filter (fun s => s.is_enabled && s.is_hardware)).map
            (fun s => s.hardware_register_index)).length := by
          rw [List.length_map]
    _ = ((sites.filter (fun s => s.is_enabled && s.is_hardware)).map
            (fun s => s.hardware_register_index)).toFinset.card :=
          (List.toFinset_card_of_nodup hnd).symm
    _ ≤ ({0, 1, 2, 3} : Finset Int).card := Finset.card_le_card hsub
    _ = 4 := by decide

/-- Witness for C6: with all four slots occupied allocation fails; after
clearing slot 2 it succeeds again. -/
theorem C6_hardware_slot_limit_witness :
    process.set_hardware_breakpoint (fun _ => true) = none ∧
    process.set_hardware_breakpoint
      (process.clear_hardware_stoppoint (fun _ => true) ((2 : Fin 4) : Nat))
      ≠ none :=
  ⟨C6_hardware_slot_limit.2.1 (fun _ => true) (fun _ => rfl),
    C6_hardware_slot_limit.2.2.1 (fun _ => true) 2⟩

/-- C7: a freshly constructed process is `stopped`; `resume` and
`step_instruction` move `stopped` to `running`; `wait_on_signal` moves
`running` to `stopped` on `WIFSTOPPED`, to `exited` on `WIFEXITED` and to
`terminated` on `WIFSIGNALED`; `exited` and `terminated` are terminal; and
these are the only transitions. -/
theorem C7_process_lifecycle :
    process.initial_state = process_state.stopped ∧
    (∀ s o s', process.transition s o = some s' →
      (s = process_state.stopped ∧ s' = process_state.running ∧
        (o = process_op.resume ∨ o = process_op.step_instruction)) ∨
      (s = process_state.running ∧ ∃ w, o = process_op.wait w ∧
        ((∃ sig, w = wait_status.ifstopped sig ∧
            s' = process_state.stopped) ∨
         (∃ st, w = wait_status.ifexited st ∧ s' = process_state.exited) ∨
         (∃ sig, w = wait_status.ifsignaled sig ∧
            s' = process_state.terminated)))) ∧
    (∀ o, process.transition process_state.exited o = none) ∧
    (∀ o, process.transition process_state.terminated o = none) := by
  refine ⟨rfl, ?_, ?_, ?_⟩
  · intro s o s' h
    cases s with
    | stopped =>
      cases o with
      | resume =>
        left
        refine ⟨rfl, ?_, Or.inl rfl⟩
        simpa [process.transition] using h.symm
      | step_instruction =>
        left
        refine ⟨rfl, ?_, Or.inr rfl⟩
        simpa [process.transition] using h.symm
      | wait w => simp [process.transition] at h
    | running =>
      cases o with
      | resume => simp [process.transition] at h
      | step_instruction => simp [process.transition] at h
      | wait w =>
        right
        refine ⟨rfl, w, rfl, ?_⟩
        cases w with
        | ifstopped sig =>
          exact Or.inl ⟨sig, rfl, by simpa [process.transition, decode_wait]
            using h.symm⟩
        | ifexited st =>
          exact Or.inr (Or.inl ⟨st, rfl,
            by simpa [process.transition, decode_wait] using h.symm⟩)
        | ifsignaled sig =>
          exact Or.inr (Or.inr ⟨sig, rfl,
            by simpa [process.transition, decode_wait] using h.symm⟩)
    | exited => cases o <;> simp [process.transition] at h
    | terminated => cases o <;> simp [process.transition] at h
  · intro o
    cases o <;> rfl
  · intro o
    cases o <;> rfl

/-- Witness for C7: the `resume` transition from `stopped`, and `waitpid`
reporting `WIFEXITED 0` from `running`. -/
theorem C7_process_lifecycle_witness :
    process.initial_state = process_state.stopped ∧
    process.transition process_state.stopped process_op.resume =
      some process_state.running ∧
    ((process_state.running = process_state.stopped ∧
        process_state.exited = process_state.running ∧
        (process_op.wait (wait_status.ifexited 0) = process_op.resume ∨
         process_op.wait (wait_status.ifexited 0) =
           process_op.step_instruction)) ∨
     (process_state.running = process_state.running ∧
        ∃ w, process_op.wait (wait_status.ifexited 0) = process_op.wait w ∧
        ((∃ sig, w = wait_status.ifstopped sig ∧
            process_state.exited = process_state.stopped) ∨
         (∃ st, w = wait_status.ifexited st ∧
            process_state.exited = process_state.exited) ∨
         (∃ sig, w = wait_status.ifsignaled sig ∧
            process_state.exited = process_state.terminated)))) :=
  ⟨C7_process_lifecycle.1, rfl,
    C7_process_lifecycle.2.1 process_state.running
      (process_op.wait (wait_status.ifexited 0)) process_state.exited rfl⟩

/-- The address of a constructed site is the requested address. -/
theorem construct_address (c a : Nat) (hw int : Bool) :
    (breakpoint_site.construct c a hw int).1.address = a := by
  cases int <;> simp [breakpoint_site.construct, get_next_id]

/-- One collection operation preserves address distinctness. -/
theorem run_coll_op_distinct (p : List breakpoint_site × Nat) (op : coll_op)
    (h : distinct_addresses p.1) : distinct_addresses (run_coll_op p op).1 := by
  cases op with
  | create a hw int =>
    simp only [run_coll_op, process.create_breakpoint_site]
    by_cases hdup : p.1.any (fun s => s.address == a)
    · rw [if_pos hdup]
      exact h
    · rw [if_neg hdup]
      rw [List.any_eq_true] at hdup
      push_neg at hdup
      refine List.pairwise_append.mpr ⟨h, List.pairwise_singleton _ _, ?_⟩
      intro x hx y hy
      rw [List.mem_singleton] at hy
      subst hy
      rw [construct_address]
      intro hcontra
      exact absurd (by rw [hcontra]; exact beq_self_eq_true a) (hdup x hx)
  | remove_by_address a => exact h.sublist (List.filter_sublist _)
  | remove_by_id i => exact h.sublist (List.filter_sublist _)

/-- C8: creating a breakpoint site at an address that already has one fails
(with the collection and the id counter unchanged), and address distinctness
is an invariant of every sequence of create/remove operations — so at no
reachable state do two breakpoint sites share an address. -/
theorem C8_duplicate_address (sites : List breakpoint_site) (c a : Nat)
    (hw int : Bool) (ops : List coll_op) :
    ((∃ s ∈ sites, s.address = a) →
      process.create_breakpoint_site sites c a hw int =
        (some ⟨"Breakpoint site already created at address", none⟩,
          sites, c)) ∧
    (distinct_addresses sites →
      distinct_addresses (ops.foldl run_coll_op (sites, c)).1) := by
  constructor
  · rintro ⟨s, hs, rfl⟩
    simp only [process.create_breakpoint_site]
    rw [if_pos]
    rw [List.any_eq_true]
    exact ⟨s, hs, beq_self_eq_true _⟩
  · intro hd
    have hgen : ∀ (l : List coll_op) (p : List breakpoint_site × Nat),
        distinct_addresses p.1 →
        distinct_addresses (l.foldl run_coll_op p).1 := by
      intro l
      induction l with
      | nil => intro p hp; exact hp
      | cons op l ih =>
        intro p hp
        exact ih (run_coll_op p op) (run_coll_op_distinct p op hp)
    exact hgen ops (sites, c) hd

/-- Witness for C8: creating at address 100 twice from an empty collection —
the second creation fails and leaves the collection unchanged. -/
theorem C8_duplicate_address_witness :
    process.create_breakpoint_site
      (run_coll_op ([], 0) (coll_op.create 100 false false)).1
      (run_coll_op ([], 0) (coll_op.create 100 false false)).2
      100 false false =
      (some ⟨"Breakpoint site already created at address", none⟩,
        (run_coll_op ([], 0) (coll_op.create 100 false false)).1,
        (run_coll_op ([], 0) (coll_op.create 100 false false)).2) ∧
    distinct_addresses
      (([coll_op.create 100 false false, coll_op.create 200 false false].foldl
        run_coll_op ([], 0))).1 :=
  ⟨(C8_duplicate_address
      (run_coll_op ([], 0) (coll_op.create 100 false false)).1
      (run_coll_op ([], 0) (coll_op.create 100 false false)).2
      100 false false []).1
      ⟨(breakpoint_site.construct 0 100 false false).1, by decide, rfl⟩,
    (C8_duplicate_address [] 0 100 false false
      [coll_op.create 100 false false, coll_op.create 200 false false]).2
      List.Pairwise.nil⟩

/-- C9: `create_watchpoint` fails with a usage error for every size outside
{1,2,4,8}, leaving the watchpoint collection and the counter unchanged; for a
size in {1,2,4,8} (at a fresh address) it appends the watchpoint. -/
theorem C9_watchpoint_size (wps : List watchpoint) (c a : Nat)
    (m : stoppoint_mode) (sz : Nat) :
    (sz ≠ 1 → sz ≠ 2 → sz ≠ 4 → sz ≠ 8 →
      process.create_watchpoint wps c a m sz =
        (some ⟨"Invalid watchpoint size", none⟩, wps, c)) ∧
    ((sz = 1 ∨ sz = 2 ∨ sz = 4 ∨ sz = 8) → (∀ w ∈ wps, w.address ≠ a) →
      process.create_watchpoint wps c a m sz =
        (none, wps ++ [⟨((c + 1 : Nat) : Int), a, m, sz, false⟩], c + 1)) := by
  constructor
  · intro h1 h2 h4 h8
    simp only [process.create_watchpoint]
    rw [if_neg (by tauto)]
  · intro hsz hfresh
    simp only [process.create_watchpoint]
    rw [if_pos hsz, if_neg]
    rw [List.any_eq_true]
    rintro ⟨w, hw, hbeq⟩
    exact hfresh w hw (by exact beq_iff_eq.mp hbeq)

/-- Witness for C9: size 3 fails, size 4 creates, on an empty collection. -/
theorem C9_watchpoint_size_witness :
    process.create_watchpoint [] 0 4096 stoppoint_mode.write 3 =
      (some ⟨"Invalid watchpoint size", none⟩, [], 0) ∧
    process.create_watchpoint [] 0 4096 stoppoint_mode.write 4 =
      (none, [⟨1, 4096, stoppoint_mode.write, 4, false⟩], 1) :=
  ⟨(C9_watchpoint_size [] 0 4096 stoppoint_mode.write 3).1
      (by decide) (by decide) (by decide) (by decide),
    (C9_watchpoint_size [] 0 4096 stoppoint_mode.write 4).2
      (by tauto) (fun w hw => absurd hw (List.not_mem_nil w))⟩

end sdb
